import Mathlib

/-!
Shallow embedding of the diagnosis-orchestration core of the
Chatbot_llm_npu repository (LINE plant-disease chatbot backed by the
Gemini vision API), together with theorems settling the frozen claims
about its specification.

Embedded modules:
 - app/services/cache_service.py  (Redis-backed cache, rate limiting, keys)
 - app/services/gemini_service.py (response parsing, retry/fallback loop)
 - app/services/image_service.py  (validation, resize/optimize)
 - app/services/session_service.py (in-memory session store)
 - app/handlers/message_handler.py (process_diagnosis orchestration)
 - app/models.py                  (pydantic schema for DiagnosisResult)

Bytes are modelled as `List Nat`; text handled character-exactly is
`List Char`.  External black boxes (the JSON decoder, the MD5 digest,
the JPEG/WebP encoder, PIL image decoding) are parameters of the
definitions that call them, mirroring the fact that the source calls
into opaque libraries at those points.
-/

namespace Chatbot

instance {ε α : Type} [DecidableEq ε] [DecidableEq α] :
    DecidableEq (Except ε α) := fun a b =>
  match a, b with
  | .ok x, .ok y =>
    if h : x = y then .isTrue (by rw [h])
    else .isFalse (fun c => h (Except.ok.inj c))
  | .error x, .error y =>
    if h : x = y then .isTrue (by rw [h])
    else .isFalse (fun c => h (Except.error.inj c))
  | .ok _, .error _ => .isFalse (fun c => Except.noConfusion c)
  | .error _, .ok _ => .isFalse (fun c => Except.noConfusion c)

abbrev Bytes := List Nat

/-! ### A Redis-style expiring key-value store

Models the subset of Redis used by `cache_service.py`: `SETEX key ttl v`
stores `v` with an absolute expiry time, `GET key` at time `now` returns
the value while `now` is strictly before the expiry and nothing
afterwards (expired keys are treated as absent, as Redis does). -/

structure KV (α : Type) where
  entries : List (String × α × Nat)
deriving Repr, DecidableEq

def KV.empty {α : Type} : KV α := ⟨[]⟩

def KV.get {α : Type} (s : KV α) (now : Nat) (k : String) : Option α :=
  match s.entries.find? (fun e => e.1 == k) with
  | some (_, v, exp) => if now < exp then some v else none
  | none => none

def KV.setex {α : Type} (s : KV α) (now ttl : Nat) (k : String) (v : α) : KV α :=
  ⟨(k, v, now + ttl) :: s.entries.filter (fun e => e.1 != k)⟩

/-! ### app/models.py — the DiagnosisResult schema

`DiagnosisResult` mirrors the pydantic model: required string fields,
`confidence_level` constrained by `ge=0, le=100`, list fields defaulting
to empty, a nested `DiseaseCharacteristics` whose `severity` must be one
of the three `Severity` enum values, a nested `Treatment`, and optional
trailing fields.  `Raw*` structures model the decoded JSON before
validation: every field may be absent and the confidence is an
unconstrained integer.  `model_validate` mirrors pydantic validation:
it succeeds exactly when all required fields are present and all
constraints hold, and it never alters the confidence value. -/

inductive Severity where
  | mild | moderate | severe
deriving Repr, DecidableEq

def Severity.ofString (s : String) : Option Severity :=
  if s = "เล็กน้อย" then some .mild
  else if s = "ปานกลาง" then some .moderate
  else if s = "รุนแรง" then some .severe
  else none

structure ChemicalControl where
  product_name : String
  active_ingredient : String
  dosage : String
  application_method : String
  precautions : String
deriving Repr, DecidableEq

structure DiseaseCharacteristics where
  appearance : String
  occurrence : String
  spread_pattern : String
  severity : Severity
deriving Repr, DecidableEq

structure Treatment where
  immediate_action : List String
  chemical_control : List ChemicalControl
  organic_control : List String
  cultural_practices : List String
deriving Repr, DecidableEq

structure DiagnosisResult where
  disease_name_th : String
  disease_name_en : String
  pathogen_type : String
  confidence_level : Int
  symptoms_observed : List String
  disease_characteristics : DiseaseCharacteristics
  recommendations : List String
  prevention_methods : List String
  treatment : Treatment
  additional_notes : Option String
  followup_needed : Bool
  expert_consultation : Option String
deriving Repr, DecidableEq

structure RawCharacteristics where
  appearance : Option String
  occurrence : Option String
  spread_pattern : Option String
  severity : Option String
deriving Repr, DecidableEq

structure RawTreatment where
  immediate_action : Option (List String)
  chemical_control : Option (List ChemicalControl)
  organic_control : Option (List String)
  cultural_practices : Option (List String)
deriving Repr, DecidableEq

structure RawDiagnosis where
  disease_name_th : Option String
  disease_name_en : Option String
  pathogen_type : Option String
  confidence_level : Option Int
  symptoms_observed : Option (List String)
  disease_characteristics : Option RawCharacteristics
  recommendations : Option (List String)
  prevention_methods : Option (List String)
  treatment : Option RawTreatment
  additional_notes : Option String
  followup_needed : Option Bool
  expert_consultation : Option String
deriving Repr, DecidableEq

def RawCharacteristics.validate (rc : RawCharacteristics) :
    Option DiseaseCharacteristics := do
  let a ← rc.appearance
  let o ← rc.occurrence
  let sp ← rc.spread_pattern
  let sevS ← rc.severity
  let sev ← Severity.ofString sevS
  pure ⟨a, o, sp, sev⟩

def RawTreatment.validate (rt : RawTreatment) : Treatment :=
  ⟨rt.immediate_action.getD [], rt.chemical_control.getD [],
   rt.organic_control.getD [], rt.cultural_practices.getD []⟩

def DiagnosisResult.model_validate (raw : RawDiagnosis) :
    Option DiagnosisResult := do
  let th ← raw.disease_name_th
  let en ← raw.disease_name_en
  let pt ← raw.pathogen_type
  let conf ← raw.confidence_level
  if 0 ≤ conf ∧ conf ≤ 100 then
    let rc ← raw.disease_characteristics
    let dc ← rc.validate
    let rt ← raw.treatment
    pure { disease_name_th := th
           disease_name_en := en
           pathogen_type := pt
           confidence_level := conf
           symptoms_observed := raw.symptoms_observed.getD []
           disease_characteristics := dc
           recommendations := raw.recommendations.getD []
           prevention_methods := raw.prevention_methods.getD []
           treatment := rt.validate
           additional_notes := raw.additional_notes
           followup_needed := raw.followup_needed.getD false
           expert_consultation := raw.expert_consultation }
  else
    none

/-! ### app/services/gemini_service.py — response parsing

`GeminiAPIError` mirrors the exception class (message, user_message,
retryable flag).  `_parse_response` mirrors the method of the same name:
strip the text, extract the payload of the first markdown code fence
(the `re.search` over the pattern "triple backtick, optional json tag,
whitespace, lazy capture, triple backtick") when present, decode JSON
(a failure is a retryable error), and validate against the schema
(a failure is a non-retryable error).  The JSON decoder itself is the
opaque `json.loads`; it is a parameter `jp : List Char → Option
RawDiagnosis` (`none` models a `JSONDecodeError`).  Python's `.strip()`
is modelled exactly as dropping ASCII whitespace from both ends. -/

structure GeminiAPIError where
  message : String
  user_message : String
  retryable : Bool
deriving Repr, DecidableEq

/-- Thai user-facing message `ERROR_MESSAGES["api_error"]` from app/models.py. -/
def apiErrorMsg : String := "ระบบขัดข้อง กรุณาลองใหม่อีกครั้งในอีกสักครู่"

def isPySpace (c : Char) : Bool :=
  c = ' ' || c = '\t' || c = '\n' || c = '\r' || c = '\x0b' || c = '\x0c'

/-- Python `str.strip()` on a character list. -/
def pyStrip (s : List Char) : List Char :=
  ((s.dropWhile isPySpace).reverse.dropWhile isPySpace).reverse

/-- If `pre` is a prefix of `s`, return the remainder, else `none`. -/
def dropPre : List Char → List Char → Option (List Char)
  | [], s => some s
  | _ :: _, [] => none
  | d :: ds, c :: cs => if c = d then dropPre ds cs else none

/-- Split `s` around the first occurrence of `delim`, returning the part
before it and the part after it. -/
def splitFirst (delim : List Char) : List Char → Option (List Char × List Char)
  | [] => match dropPre delim [] with
    | some rest => some ([], rest)
    | none => none
  | c :: cs => match dropPre delim (c :: cs) with
    | some rest => some ([], rest)
    | none => (splitFirst delim cs).map (fun p => (c :: p.1, p.2))

def fenceChars : List Char := ['`', '`', '`']

/-- The capture of the code-fence regex before stripping:
text between the first code fence (with its optional `json` tag) and
the next one; `none` when no complete fenced block exists.  (The `\s*`
of the pattern is outside the capture group; since the source strips
the captured group, keeping the leading whitespace here and stripping
afterwards is equivalent.) -/
def extractFenced (s : List Char) : Option (List Char) :=
  match splitFirst fenceChars s with
  | none => none
  | some (_, rest) =>
    let rest2 := match dropPre ['j', 's', 'o', 'n'] rest with
      | some r => r
      | none => rest
    match splitFirst fenceChars rest2 with
    | some (inner, _) => some inner
    | none => none

def jsonParseOfText (jp : List Char → Option RawDiagnosis) (text : List Char) :
    Option RawDiagnosis :=
  let t := pyStrip text
  let t := match extractFenced t with
    | some inner => pyStrip inner
    | none => t
  jp t

def parse_response (jp : List Char → Option RawDiagnosis) (text : List Char) :
    Except GeminiAPIError DiagnosisResult :=
  match jsonParseOfText jp text with
  | none => .error ⟨"Invalid JSON response", apiErrorMsg, true⟩
  | some raw => match DiagnosisResult.model_validate raw with
    | some r => .ok r
    | none => .error ⟨"Response validation failed", apiErrorMsg, false⟩

/-! ### app/services/gemini_service.py — the diagnose retry/fallback loop

The loop body in `diagnose` classifies each model call's outcome:
 - `response.text` empty            → `GeminiAPIError(retryable=True)`
 - `google_exceptions.ResourceExhausted`  → record a retryable error and
   `break` out of the attempt loop (advance to the next model at once)
 - `google_exceptions.ServiceUnavailable` → record a retryable error and
   retry the same model after backoff (`break` only once attempts run out)
 - `GeminiAPIError` from parsing    → `break` to the next model iff the
   error is non-retryable, else retry the same model
 - any other exception              → wrapped retryable, retry same model
After the model list is exhausted, `raise last_error or
GeminiAPIError("All fallback models failed", ..., retryable=False)`.

A call's outcome is scripted by `script : Nat → Nat → CallOutcome`
(model index, zero-based attempt index); the return value carries the
trace of (model index, attempt index) pairs actually dispatched, which
the handler-level claims quantify over. -/

inductive CallOutcome where
  | text (t : List Char)
  | emptyText
  | resourceExhausted
  | serviceUnavailable
  | otherException (msg : String)
deriving Repr, DecidableEq

def quotaErr : GeminiAPIError :=
  ⟨"API Rate Limit or Service error", apiErrorMsg, true⟩

def emptyErr : GeminiAPIError :=
  ⟨"Empty response from Gemini", apiErrorMsg, true⟩

def exhaustedErr : GeminiAPIError :=
  ⟨"All fallback models failed", apiErrorMsg, false⟩

/-- Classify one attempt: `.ok` on success, else the recorded error and
whether the attempt loop for this model is abandoned (`break`). -/
def attemptOutcome (jp : List Char → Option RawDiagnosis) :
    CallOutcome → Except (GeminiAPIError × Bool) DiagnosisResult
  | .emptyText => .error (emptyErr, false)
  | .resourceExhausted => .error (quotaErr, true)
  | .serviceUnavailable => .error (quotaErr, false)
  | .otherException m => .error (⟨m, apiErrorMsg, true⟩, false)
  | .text t => match parse_response jp t with
    | .ok r => .ok r
    | .error e => .error (e, !e.retryable)

/-- The recorded error of a failing attempt, `none` on success. -/
def attemptErr (jp : List Char → Option RawDiagnosis) (o : CallOutcome) :
    Option (GeminiAPIError × Bool) :=
  match attemptOutcome jp o with
  | .ok _ => none
  | .error p => some p

/-- The `for attempt in range(self.max_retries)` loop for one model.
`remaining` counts attempts left, `attempt` is the current zero-based
index, `lastErr` threads `last_error`.  Returns (result if any, the
final `last_error`, the trace of attempt indices dispatched). -/
def runModel (jp : List Char → Option RawDiagnosis)
    (outcomes : Nat → CallOutcome) :
    Nat → Nat → Option GeminiAPIError →
    Option DiagnosisResult × Option GeminiAPIError × List Nat
  | 0, _, lastErr => (none, lastErr, [])
  | remaining + 1, attempt, lastErr =>
    match attemptOutcome jp (outcomes attempt) with
    | .ok r => (some r, lastErr, [attempt])
    | .error (e, abandon) =>
      if abandon then (none, some e, [attempt])
      else
        let rest := runModel jp outcomes remaining (attempt + 1) (some e)
        (rest.1, rest.2.1, attempt :: rest.2.2)

/-- The `for model_name in self.fallback_models` loop.  `modelsLeft`
counts models still to try, `idx` is the current model index. -/
def runModels (jp : List Char → Option RawDiagnosis)
    (script : Nat → Nat → CallOutcome) (maxRetries : Nat) :
    Nat → Nat → Option GeminiAPIError →
    Except GeminiAPIError DiagnosisResult × List (Nat × Nat)
  | 0, _, lastErr => (.error (lastErr.getD exhaustedErr), [])
  | modelsLeft + 1, idx, lastErr =>
    match runModel jp (script idx) maxRetries 0 lastErr with
    | (some r, _, tr) => (.ok r, tr.map (fun a => (idx, a)))
    | (none, le, tr) =>
      let rest := runModels jp script maxRetries modelsLeft (idx + 1) le
      (rest.1, tr.map (fun a => (idx, a)) ++ rest.2)

/-- `GeminiService.diagnose` over a scripted sequence of call outcomes:
`numModels` is the length of `settings.gemini_fallback_models` and
`maxRetries` is `settings.api_max_retries`. -/
def diagnose (jp : List Char → Option RawDiagnosis)
    (script : Nat → Nat → CallOutcome) (maxRetries numModels : Nat) :
    Except GeminiAPIError DiagnosisResult × List (Nat × Nat) :=
  runModels jp script maxRetries numModels 0 none

/-! ### app/services/image_service.py

`SUPPORTED_FORMATS` is the literal set from the source (note it spells
the JPEG format under two MIME names).  `validate_image` checks, in
order: declared content type supported, raw length not exceeding
`max_size_bytes`, and bytes decodable by PIL — the decoder is opaque
and is a parameter `decodable`.  `_resize_image` is the pure dimension
arithmetic of the source method; Python's
`int(height * (max_dimension / width))` is the floor of the exact
rational, modelled by natural-number division.  `optimize_image`
re-encodes at the configured quality with no size check on its output;
the encoder (PIL `save`) is opaque and is a parameter from output
dimensions to encoded byte count. -/

def SUPPORTED_FORMATS : List String :=
  ["image/jpeg", "image/png", "image/webp", "image/jpg"]

inductive ValidationOutcome where
  | ok
  | unsupportedFormat
  | tooLarge
  | corrupt
deriving Repr, DecidableEq

def validate_image (decodable : Bytes → Bool) (maxSizeBytes : Nat)
    (imageData : Bytes) (contentType : String) : ValidationOutcome :=
  if contentType ∉ SUPPORTED_FORMATS then .unsupportedFormat
  else if imageData.length > maxSizeBytes then .tooLarge
  else if ¬ decodable imageData then .corrupt
  else .ok

def resize_image (maxDimension w h : Nat) : Nat × Nat :=
  if w ≤ maxDimension ∧ h ≤ maxDimension then (w, h)
  else if w > h then (maxDimension, h * maxDimension / w)
  else (w * maxDimension / h, maxDimension)

def optimize_image (encode : Nat → Nat → Nat) (maxDimension w h : Nat) :
    (Nat × Nat) × Nat :=
  let d := resize_image maxDimension w h
  (d, encode d.1 d.2)

/-! ### app/services/cache_service.py — diagnosis key and user image

`_generate_diagnosis_key` concatenates the raw image bytes, the UTF-8
bytes of the plant type, and the bytes of `region or ""`, and prepends
"diagnosis:" to the hex MD5 of the concatenation.  MD5 is opaque; the
definition is parametric in the digest function `md5hex`.

`get_user_image` issues two independent GETs (image bytes and content
type) and returns the pair only when both values are present and truthy
in Python's sense (non-empty); otherwise `(None, None)`. -/

def generate_diagnosis_key (md5hex : Bytes → String)
    (imageData : Bytes) (plantType : Bytes) (region : Option Bytes) : String :=
  "diagnosis:" ++ md5hex (imageData ++ plantType ++ region.getD [])

def cache_get_user_image (store : KV Bytes) (now : Nat) (userId : String) :
    Option Bytes × Option Bytes :=
  match store.get now ("user:" ++ userId ++ ":image"),
        store.get now ("user:" ++ userId ++ ":image_type") with
  | some i, some t => if i ≠ [] ∧ t ≠ [] then (some i, some t) else (none, none)
  | _, _ => (none, none)

/-! ### app/services/session_service.py — in-memory get_user_image

The in-memory store keeps `(image_data, content_type, expiry)` as one
tuple per user and returns both components while unexpired. -/

def sess_get_user_image (store : List (String × Bytes × String × Nat))
    (now : Nat) (userId : String) : Option Bytes × Option String :=
  match store.find? (fun e => e.1 == userId) with
  | some (_, img, ty, expiry) =>
    if now < expiry then (some img, some ty) else (none, none)
  | none => (none, none)

/-! ### app/handlers/message_handler.py — process_diagnosis

The orchestration flow after the user's stored image and info have been
fetched: absent image → session-expired path; otherwise compute the
diagnosis cache key, hit → use the cached result with no model call;
miss → run `diagnose`, then cache the result under the key; in both
non-error paths increment the rate counter exactly once (line 143 of
the source runs after the result is obtained, whether from cache or
from the model); a `GeminiAPIError` escaping `diagnose` skips both the
cache write and the increment.  The JSON round trip through
`model_dump_json`/`model_validate_json` on the cache is modelled as
the identity.  `incrCalls` counts calls to
`cache_service.increment_rate_counter` during the request. -/

inductive ProcOutcome where
  | sessionExpired
  | success (r : DiagnosisResult)
  | geminiError (e : GeminiAPIError)
deriving Repr, DecidableEq

structure ProcResult where
  outcome : ProcOutcome
  cache : KV DiagnosisResult
  incrCalls : Nat
  modelCalls : List (Nat × Nat)
deriving Repr, DecidableEq

def process_diagnosis (md5hex : Bytes → String)
    (jp : List Char → Option RawDiagnosis)
    (script : Nat → Nat → CallOutcome) (maxRetries numModels : Nat)
    (cache : KV DiagnosisResult) (now cacheTtl : Nat)
    (imageData : Option Bytes) (plantType : Bytes) (region : Option Bytes) :
    ProcResult :=
  match imageData with
  | none => ⟨.sessionExpired, cache, 0, []⟩
  | some img =>
    let key := generate_diagnosis_key md5hex img plantType region
    match cache.get now key with
    | some r => ⟨.success r, cache, 1, []⟩
    | none =>
      match diagnose jp script maxRetries numModels with
      | (.ok r, tr) =>
        ⟨.success r, cache.setex now cacheTtl key r, 1, tr⟩
      | (.error e, tr) =>
        ⟨.geminiError e, cache, 0, tr⟩

/-! ### Concrete example data used by scenario theorems and witnesses -/

/-- A schema-conforming decoded payload (shape of the worked example in
app/models.py's `json_schema_extra`). -/
def rawGood : RawDiagnosis :=
  { disease_name_th := some "โรคไหม้"
    disease_name_en := some "Rice Blast"
    pathogen_type := some "เชื้อรา"
    confidence_level := some 85
    symptoms_observed := some ["จุดสีน้ำตาลรูปตาบนใบ"]
    disease_characteristics :=
      some ⟨some "จุดรูปตา", some "อากาศชื้น", some "แพร่ทางลม", some "ปานกลาง"⟩
    recommendations := none
    prevention_methods := none
    treatment := some ⟨some ["ตัดใบที่เป็นโรค"], none, none, none⟩
    additional_notes := none
    followup_needed := some true
    expert_consultation := none }

/-- The validated result of `rawGood`. -/
def resGood : DiagnosisResult :=
  { disease_name_th := "โรคไหม้"
    disease_name_en := "Rice Blast"
    pathogen_type := "เชื้อรา"
    confidence_level := 85
    symptoms_observed := ["จุดสีน้ำตาลรูปตาบนใบ"]
    disease_characteristics := ⟨"จุดรูปตา", "อากาศชื้น", "แพร่ทางลม", .moderate⟩
    recommendations := []
    prevention_methods := []
    treatment := ⟨["ตัดใบที่เป็นโรค"], [], [], []⟩
    additional_notes := none
    followup_needed := true
    expert_consultation := none }

/-- `rawGood` with the out-of-range confidence from the repository's own
`test_confidence_level_bounds` test. -/
def raw150 : RawDiagnosis := { rawGood with confidence_level := some 150 }

/-- A concrete stand-in for `json.loads` in scenario runs: the character
`G` decodes to the valid payload, the character `B` decodes to the
payload with confidence 150, everything else fails to decode. -/
def jpEx (s : List Char) : Option RawDiagnosis :=
  if s = ['G'] then some rawGood
  else if s = ['B'] then some raw150
  else none

/-- A concrete stand-in digest for scenario runs (the refutations that
use it do not depend on any property of the digest function). -/
def md5Ex (bs : Bytes) : String := toString bs.length

/-! ## Theorems settling the claims -/

/-- C6: every raw payload accepted by `DiagnosisResult.model_validate`
yields a result with `0 ≤ confidence_level ≤ 100`; a raw payload whose
confidence field is 150 is always rejected outright (no result object
is produced at all, so the value is never clamped into range), and the
response parser classifies such a payload as a non-retryable
schema-validation failure. -/
theorem C6_confidence_bound :
    (∀ raw r, DiagnosisResult.model_validate raw = some r →
        0 ≤ r.confidence_level ∧ r.confidence_level ≤ 100) ∧
    (∀ raw : RawDiagnosis, raw.confidence_level = some 150 →
        DiagnosisResult.model_validate raw = none) ∧
    parse_response jpEx ['B'] =
      .error ⟨"Response validation failed", apiErrorMsg, false⟩ := by
  refine ⟨?_, ?_, by decide⟩
  · intro raw r h
    simp only [DiagnosisResult.model_validate, bind, Option.bind_eq_some,
      Option.pure_def, Option.some_inj] at h
    obtain ⟨th, hth, en, hen, pt, hpt, conf, hconf, h⟩ := h
    by_cases hc : 0 ≤ conf ∧ conf ≤ 100
    · rw [if_pos hc] at h
      simp only [bind, Option.bind_eq_some, Option.pure_def,
        Option.some_inj] at h
      obtain ⟨dcr, hdcr, dc, hdc, rt, hrt, hr⟩ := h
      subst hr
      exact hc
    · rw [if_neg hc] at h
      exact absurd h (by simp)
  · intro raw h
    rcases hth : raw.disease_name_th with _ | th <;>
      rcases hen : raw.disease_name_en with _ | en <;>
        rcases hpt : raw.pathogen_type with _ | pt <;>
          simp [DiagnosisResult.model_validate, bind, hth, hen, hpt, h]

/-- C6 witness: instantiation of the bound at the worked example and of
the rejection at `raw150`. -/
theorem C6_confidence_bound_witness :
    (0 ≤ resGood.confidence_level ∧ resGood.confidence_level ≤ 100) ∧
    DiagnosisResult.model_validate raw150 = none :=
  ⟨C6_confidence_bound.1 rawGood resGood (by decide),
   C6_confidence_bound.2.1 raw150 (by decide)⟩

/-- C9: `validate_image` fails exactly under the three conditions —
declared MIME type outside the supported set (the jpeg/png/webp formats,
jpeg under its two MIME spellings), raw length exceeding the configured
maximum, or bytes the decoder rejects — and succeeds on every input
meeting none of them; each failure kind corresponds exactly to its
condition, checked in the source's order. -/
theorem C9_validate_image_iff :
    ∀ (decodable : Bytes → Bool) (maxSizeBytes : Nat) (data : Bytes)
      (ct : String),
      (validate_image decodable maxSizeBytes data ct = .ok ↔
        ct ∈ SUPPORTED_FORMATS ∧ data.length ≤ maxSizeBytes ∧
          decodable data = true) ∧
      (validate_image decodable maxSizeBytes data ct = .unsupportedFormat ↔
        ct ∉ SUPPORTED_FORMATS) ∧
      (validate_image decodable maxSizeBytes data ct = .tooLarge ↔
        ct ∈ SUPPORTED_FORMATS ∧ maxSizeBytes < data.length) ∧
      (validate_image decodable maxSizeBytes data ct = .corrupt ↔
        ct ∈ SUPPORTED_FORMATS ∧ data.length ≤ maxSizeBytes ∧
          decodable data = false) := by
  intro decodable maxSizeBytes data ct
  unfold validate_image
  by_cases h1 : ct ∈ SUPPORTED_FORMATS <;>
    by_cases h2 : data.length > maxSizeBytes <;>
      by_cases h3 : decodable data = true <;>
        simp only [h1, h2, h3, not_true, not_false_iff, if_true, if_false,
          Bool.not_eq_true] <;>
          refine ⟨?_, ?_, ?_, ?_⟩ <;> constructor <;>
            intro hx <;> simp_all <;> omega

/-- C10: both implementations of `get_user_image` return either
`(None, None)` or a complete `(bytes, content-type)` pair, and whenever
either underlying entry is absent or expired the result is `(None,
None)` — image bytes are never yielded without a MIME type. -/
theorem C10_user_image_complete_pair :
    ∀ (store : KV Bytes) (sstore : List (String × Bytes × String × Nat))
      (now : Nat) (uid : String),
      (cache_get_user_image store now uid = (none, none) ∨
        ∃ i t, cache_get_user_image store now uid = (some i, some t)) ∧
      ((store.get now ("user:" ++ uid ++ ":image") = none ∨
        store.get now ("user:" ++ uid ++ ":image_type") = none) →
        cache_get_user_image store now uid = (none, none)) ∧
      (sess_get_user_image sstore now uid = (none, none) ∨
        ∃ i t, sess_get_user_image sstore now uid = (some i, some t)) := by
  intro store sstore now uid
  refine ⟨?_, ?_, ?_⟩
  · rcases hi : store.get now ("user:" ++ uid ++ ":image") with _ | i <;>
      rcases ht : store.get now ("user:" ++ uid ++ ":image_type") with _ | t
    · exact Or.inl (by simp [cache_get_user_image, hi, ht])
    · exact Or.inl (by simp [cache_get_user_image, hi, ht])
    · exact Or.inl (by simp [cache_get_user_image, hi, ht])
    · by_cases hne : i ≠ [] ∧ t ≠ []
      · exact Or.inr ⟨i, t, by simp [cache_get_user_image, hi, ht, hne.1, hne.2]⟩
      · exact Or.inl (by simp only [cache_get_user_image, hi, ht, if_neg hne])
  · intro h
    rcases hi : store.get now ("user:" ++ uid ++ ":image") with _ | i <;>
      rcases ht : store.get now ("user:" ++ uid ++ ":image_type") with _ | t <;>
        simp_all [cache_get_user_image]
  · rcases hf : sstore.find? (fun e => e.1 == uid) with _ | e
    · exact Or.inl (by simp [sess_get_user_image, hf])
    · obtain ⟨u, img, ty, expiry⟩ := e
      by_cases h : now < expiry
      · exact Or.inr ⟨img, ty, by simp [sess_get_user_image, hf, h]⟩
      · exact Or.inl (by simp [sess_get_user_image, hf, h])

/-- C10 witness: the implication applied at a store whose image entry is
present but whose content-type entry is absent. -/
theorem C10_user_image_complete_pair_witness :
    cache_get_user_image ⟨[("user:u:image", [7], 100)]⟩ 0 "u"
      = (none, none) :=
  (C10_user_image_complete_pair ⟨[("user:u:image", [7], 100)]⟩ [] 0 "u").2.1
    (Or.inr (by decide))

/-- C7 counterexample: the claim also asserts a byte bound
`len(payload) ≤ maxSizeBytes` on the output of normalization, but the
source checks only the INPUT size (`validate_image`) and re-encodes with
no check whatsoever on the encoder's output size, so no property of the
code bounds the output bytes.  Concretely: an input of 10 bytes passes
validation under the default 5 MB limit, yet with an encoder producing
5242881 bytes (the encoder is PIL's, entirely unconstrained by the
source) the optimized payload exceeds the configured maximum. -/
theorem C7_counterexample :
    validate_image (fun _ => true) 5242880 (List.replicate 10 0) "image/jpeg"
      = .ok ∧
    (optimize_image (fun _ _ => 5242881) 1024 800 600).1 = (800, 600) ∧
    (optimize_image (fun _ _ => 5242881) 1024 800 600).2 = 5242881 ∧
    ¬ (optimize_image (fun _ _ => 5242881) 1024 800 600).2 ≤ 5242880 := by
  decide

/-- C7 amended: the dimension half of the claim holds — both output
dimensions are bounded by the configured maximum, when downscaling
occurs the larger output dimension equals the maximum exactly and the
smaller one is the aspect-ratio-preserving value rounded down (the floor
characterization below) — and the only size guarantee in the code is on
the input: validation bounds the raw input bytes, while the output byte
count is exactly whatever the encoder returns, unchecked. -/
theorem C7_amended :
    (∀ maxDimension w h : Nat,
        (resize_image maxDimension w h).1 ≤ maxDimension ∧
        (resize_image maxDimension w h).2 ≤ maxDimension) ∧
    (∀ maxDimension w h : Nat, ¬ (w ≤ maxDimension ∧ h ≤ maxDimension) →
        max (resize_image maxDimension w h).1
            (resize_image maxDimension w h).2 = maxDimension) ∧
    (∀ maxDimension w h : Nat, ¬ (w ≤ maxDimension ∧ h ≤ maxDimension) →
        w > h →
        resize_image maxDimension w h =
          (maxDimension, h * maxDimension / w) ∧
        h * maxDimension / w * w ≤ h * maxDimension ∧
        h * maxDimension < (h * maxDimension / w + 1) * w) ∧
    (∀ maxDimension w h : Nat, ¬ (w ≤ maxDimension ∧ h ≤ maxDimension) →
        ¬ w > h →
        resize_image maxDimension w h =
          (w * maxDimension / h, maxDimension) ∧
        w * maxDimension / h * h ≤ w * maxDimension ∧
        w * maxDimension < (w * maxDimension / h + 1) * h) ∧
    (∀ (encode : Nat → Nat → Nat) (maxDimension w h : Nat),
        optimize_image encode maxDimension w h =
          (resize_image maxDimension w h,
           encode (resize_image maxDimension w h).1
             (resize_image maxDimension w h).2)) ∧
    (∀ (decodable : Bytes → Bool) (maxSizeBytes : Nat) (data : Bytes)
        (ct : String),
        validate_image decodable maxSizeBytes data ct = .ok →
        data.length ≤ maxSizeBytes) := by
  have hwide : ∀ maxD w h : Nat, ¬ (w ≤ maxD ∧ h ≤ maxD) → w > h →
      maxD < w := by
    intro maxD w h hn hw
    rcases Nat.lt_or_ge maxD w with hlt | hge
    · exact hlt
    · exact absurd ⟨hge, le_trans (le_of_lt hw) hge⟩ hn
  have htall : ∀ maxD w h : Nat, ¬ (w ≤ maxD ∧ h ≤ maxD) → ¬ w > h →
      maxD < h := by
    intro maxD w h hn hw
    rcases Nat.lt_or_ge maxD h with hlt | hge
    · exact hlt
    · exact absurd ⟨le_trans (Nat.le_of_not_lt hw) hge, hge⟩ hn
  have hdivle : ∀ a b maxD : Nat, 0 < b → a ≤ b → a * maxD / b ≤ maxD := by
    intro a b maxD hb hab
    calc a * maxD / b ≤ b * maxD / b :=
          Nat.div_le_div_right (Nat.mul_le_mul_right _ hab)
      _ = maxD := Nat.mul_div_cancel_left _ hb
  have hfloor : ∀ a b : Nat, 0 < b →
      a / b * b ≤ a ∧ a < (a / b + 1) * b := by
    intro a b hb
    refine ⟨Nat.div_mul_le_self a b, ?_⟩
    calc a = b * (a / b) + a % b := (Nat.div_add_mod a b).symm
      _ < b * (a / b) + b := Nat.add_lt_add_left (Nat.mod_lt a hb) _
      _ = (a / b + 1) * b := by ring
  refine ⟨?_, ?_, ?_, ?_, ?_, ?_⟩
  · intro maxD w h
    unfold resize_image
    split_ifs with h1 h2
    · exact ⟨h1.1, h1.2⟩
    · have hw0 : 0 < w := lt_of_le_of_lt (Nat.zero_le _) (hwide maxD w h h1 h2)
      exact ⟨le_refl _, hdivle h w maxD hw0 (le_of_lt h2)⟩
    · have hh0 : 0 < h := lt_of_le_of_lt (Nat.zero_le _) (htall maxD w h h1 h2)
      exact ⟨hdivle w h maxD hh0 (Nat.le_of_not_lt h2), le_refl _⟩
  · intro maxD w h h1
    unfold resize_image
    rw [if_neg h1]
    split_ifs with h2
    · have hw0 : 0 < w := lt_of_le_of_lt (Nat.zero_le _) (hwide maxD w h h1 h2)
      exact max_eq_left (hdivle h w maxD hw0 (le_of_lt h2))
    · have hh0 : 0 < h := lt_of_le_of_lt (Nat.zero_le _) (htall maxD w h h1 h2)
      exact max_eq_right (hdivle w h maxD hh0 (Nat.le_of_not_lt h2))
  · intro maxD w h h1 h2
    have hw0 : 0 < w := lt_of_le_of_lt (Nat.zero_le _) (hwide maxD w h h1 h2)
    refine ⟨?_, (hfloor (h * maxD) w hw0).1, (hfloor (h * maxD) w hw0).2⟩
    unfold resize_image
    rw [if_neg h1, if_pos h2]
  · intro maxD w h h1 h2
    have hh0 : 0 < h := lt_of_le_of_lt (Nat.zero_le _) (htall maxD w h h1 h2)
    refine ⟨?_, (hfloor (w * maxD) h hh0).1, (hfloor (w * maxD) h hh0).2⟩
    unfold resize_image
    rw [if_neg h1, if_neg h2]
  · intro encode maxD w h
    rfl
  · intro dec ms data ct h
    unfold validate_image at h
    split_ifs at h with h1 h2 h3
    omega

/-- C7 witness: the amended theorem applied to a 2048 x 1000 image under
the default 1024-pixel maximum. -/
theorem C7_amended_witness :
    resize_image 1024 2048 1000 = (1024, 500) ∧
    max (resize_image 1024 2048 1000).1 (resize_image 1024 2048 1000).2
      = 1024 ∧
    (List.replicate 10 0).length ≤ 5242880 :=
  ⟨by
    have h := (C7_amended.2.2.1 1024 2048 1000 (by decide) (by decide)).1
    simpa using h,
   C7_amended.2.1 1024 2048 1000 (by decide),
   C7_amended.2.2.2.2.2 (fun _ => true) 5242880 (List.replicate 10 0)
     "image/jpeg" (by decide)⟩

/-! ### Concrete stores and scripts shared by claim refutations -/

def imgEx : Bytes := [1, 2]

def ptEx : Bytes := [3]

def keyEx : String := generate_diagnosis_key md5Ex imgEx ptEx none

/-- A cache already holding the worked-example result under `keyEx`. -/
def hitCacheEx : KV DiagnosisResult := KV.empty.setex 0 3600 keyEx resGood

/-- Every call fails with a quota (ResourceExhausted) error. -/
def scriptQuota : Nat → Nat → CallOutcome := fun _ _ => .resourceExhausted

/-- Model 0 always service-unavailable; model 1 returns valid JSON. -/
def scriptC2 : Nat → Nat → CallOutcome :=
  fun i _ => if i = 0 then .serviceUnavailable else .text ['G']

/-- Model 0 returns non-JSON text on its first attempt and valid JSON on
later attempts; any other model returns valid JSON. -/
def scriptC4 : Nat → Nat → CallOutcome :=
  fun i a => if i = 0 ∧ a = 0 then .text ['X'] else .text ['G']

/-- C1 counterexample: the claim's asymmetry is reversed in the code.
A request whose fingerprint hits the result cache (no model call at
all) increments the rate counter once — `increment_rate_counter` runs
at message_handler.py:143 after the result is obtained, cached or not —
while a request that exhausts every fallback model raises before that
line and so increments the counter zero times, not once. -/
theorem C1_counterexample :
    ((process_diagnosis md5Ex jpEx scriptQuota 3 3 hitCacheEx 1 3600
        (some imgEx) ptEx none).outcome = .success resGood ∧
     (process_diagnosis md5Ex jpEx scriptQuota 3 3 hitCacheEx 1 3600
        (some imgEx) ptEx none).modelCalls = [] ∧
     (process_diagnosis md5Ex jpEx scriptQuota 3 3 hitCacheEx 1 3600
        (some imgEx) ptEx none).incrCalls = 1) ∧
    ((process_diagnosis md5Ex jpEx scriptQuota 3 3 KV.empty 0 3600
        (some imgEx) ptEx none).outcome = .geminiError quotaErr ∧
     (process_diagnosis md5Ex jpEx scriptQuota 3 3 KV.empty 0 3600
        (some imgEx) ptEx none).incrCalls = 0) := by
  decide

/-- C1 amended: the rate counter is incremented exactly once on every
request that produces a result — whether served from the cache or from
a model call — and zero times on a request that fails (all models
exhausted) or whose session had expired: the increment count equals the
success indicator of the outcome. -/
theorem C1_amended :
    ∀ (md5hex : Bytes → String) (jp : List Char → Option RawDiagnosis)
      (script : Nat → Nat → CallOutcome) (maxRetries numModels : Nat)
      (cache : KV DiagnosisResult) (now cacheTtl : Nat)
      (imageData : Option Bytes) (plantType : Bytes)
      (region : Option Bytes),
      (process_diagnosis md5hex jp script maxRetries numModels cache now
          cacheTtl imageData plantType region).incrCalls =
        match (process_diagnosis md5hex jp script maxRetries numModels
            cache now cacheTtl imageData plantType region).outcome with
        | .success _ => 1
        | _ => 0 := by
  intro md5hex jp script mr nm cache now ttl img pt rg
  cases img with
  | none => rfl
  | some i =>
    unfold process_diagnosis
    rcases hget : cache.get now (generate_diagnosis_key md5hex i pt rg)
        with _ | r
    · rcases hd : diagnose jp script mr nm with ⟨res, tr⟩
      cases res <;> simp [hget, hd]
    · simp [hget]

/-- C2 counterexample: with model 0 failing every attempt with
service-unavailable, the orchestrator does NOT advance immediately: it
spends all three attempts (0,0), (0,1), (0,2) on model 0 before moving
to model 1 — only quota-exceeded short-circuits the attempt loop. -/
theorem C2_counterexample :
    scriptC2 0 0 = CallOutcome.serviceUnavailable ∧
    diagnose jpEx scriptC2 3 2 =
      (.ok resGood, [(0, 0), (0, 1), (0, 2), (1, 0)]) ∧
    (0, 1) ∈ (diagnose jpEx scriptC2 3 2).2 := by
  decide

/-- C2 amended: an attempt failing with quota-exceeded abandons the
remaining retries for the current model at once (one attempt consumed,
then on to the next fallback model), while an attempt failing with
service-unavailable is retried on the SAME model after backoff, up to
the retry budget. -/
theorem C2_amended :
    (∀ (jp : List Char → Option RawDiagnosis)
        (outcomes : Nat → CallOutcome) (n a : Nat)
        (le : Option GeminiAPIError),
        outcomes a = CallOutcome.resourceExhausted →
        runModel jp outcomes (n + 1) a le = (none, some quotaErr, [a])) ∧
    (∀ (jp : List Char → Option RawDiagnosis)
        (outcomes : Nat → CallOutcome) (n a : Nat)
        (le : Option GeminiAPIError),
        outcomes a = CallOutcome.serviceUnavailable →
        runModel jp outcomes (n + 1) a le =
          ((runModel jp outcomes n (a + 1) (some quotaErr)).1,
           (runModel jp outcomes n (a + 1) (some quotaErr)).2.1,
           a :: (runModel jp outcomes n (a + 1) (some quotaErr)).2.2)) := by
  constructor <;> intro jp outcomes n a le h <;>
    simp [runModel, h, attemptOutcome]

/-- C2 witness: the two behaviors at attempt 0 with three attempts of
budget. -/
theorem C2_amended_witness :
    runModel jpEx (fun _ => CallOutcome.resourceExhausted) 3 0 none =
      (none, some quotaErr, [0]) ∧
    runModel jpEx (fun _ => CallOutcome.serviceUnavailable) 3 0 none =
      ((runModel jpEx (fun _ => CallOutcome.serviceUnavailable) 2 1
          (some quotaErr)).1,
       (runModel jpEx (fun _ => CallOutcome.serviceUnavailable) 2 1
          (some quotaErr)).2.1,
       0 :: (runModel jpEx (fun _ => CallOutcome.serviceUnavailable) 2 1
          (some quotaErr)).2.2) :=
  ⟨C2_amended.1 jpEx _ 2 0 none rfl, C2_amended.2 jpEx _ 2 0 none rfl⟩

/-- C8 counterexample: the key is the digest of the bare concatenation
`image_data + plant_type + (region or "")`, with no length separators,
so distinct component triples whose concatenations coincide collide
with certainty — for ANY digest function, not merely with negligible
probability.  Two witnesses: a byte shifted across the image/plant-type
boundary, and an empty region versus an absent one. -/
theorem C8_counterexample :
    generate_diagnosis_key md5Ex [97, 98] [99] none =
      generate_diagnosis_key md5Ex [97] [98, 99] none ∧
    ¬ (([97, 98] : Bytes) = [97] ∧ ([99] : Bytes) = [98, 99]) ∧
    generate_diagnosis_key md5Ex [97] [98] (some []) =
      generate_diagnosis_key md5Ex [97] [98] none ∧
    (some ([] : Bytes)) ≠ (none : Option Bytes) := by
  decide

/-- C8 amended: the fingerprint is a deterministic function of the bare
concatenation of the three components: equal concatenations give equal
keys with certainty (hence the boundary-shift collisions above), the
key is literally the constant tag plus the digest of the concatenation,
and two keys coincide only when the digests of their concatenations
coincide — so component differences that change the concatenation
change the key exactly when they avoid a digest collision. -/
theorem C8_amended :
    (∀ (md5hex : Bytes → String) (img pt : Bytes) (rg : Option Bytes)
        (img2 pt2 : Bytes) (rg2 : Option Bytes),
        img ++ pt ++ rg.getD [] = img2 ++ pt2 ++ rg2.getD [] →
        generate_diagnosis_key md5hex img pt rg =
          generate_diagnosis_key md5hex img2 pt2 rg2) ∧
    (∀ (md5hex : Bytes → String) (img pt : Bytes) (rg : Option Bytes),
        generate_diagnosis_key md5hex img pt rg =
          "diagnosis:" ++ md5hex (img ++ pt ++ rg.getD [])) ∧
    (∀ (md5hex : Bytes → String) (c1 c2 : Bytes),
        "diagnosis:" ++ md5hex c1 = "diagnosis:" ++ md5hex c2 →
        md5hex c1 = md5hex c2) := by
  refine ⟨?_, ?_, ?_⟩
  · intro f i p r i2 p2 r2 hcat
    unfold generate_diagnosis_key
    rw [hcat]
  · intro f i p r
    rfl
  · intro f c1 c2 hkey
    have hd := congrArg String.data hkey
    rw [String.data_append, String.data_append] at hd
    have := List.append_cancel_left hd
    cases hc1 : f c1 with
    | mk l1 =>
      cases hc2 : f c2 with
      | mk l2 =>
        rw [hc1, hc2] at this
        simp only at this
        rw [this]

/-- C8 witness: the concatenation-equality case at the boundary-shift
pair and digest-equality propagation at a trivial instance. -/
theorem C8_amended_witness :
    generate_diagnosis_key md5Ex [7, 8] [9] none =
      generate_diagnosis_key md5Ex [7] [8, 9] none ∧
    md5Ex [5] = md5Ex [5] :=
  ⟨C8_amended.1 md5Ex [7, 8] [9] none [7] [8, 9] none (by decide),
   C8_amended.2.2 md5Ex [5] [5] rfl⟩

/-- Redis SETEX/GET semantics: after a put, a get of the same key sees
the value strictly before the expiry time and nothing from then on. -/
theorem KV.get_setex_self {α : Type} (s : KV α) (now ttl : Nat) (k : String)
    (v : α) (t : Nat) :
    (s.setex now ttl k v).get t k = if t < now + ttl then some v else none := by
  unfold KV.setex KV.get
  rw [List.find?_cons_of_pos _ (by simp)]

/-- Every call returns the valid JSON payload. -/
def scriptGood : Nat → Nat → CallOutcome := fun _ _ => .text ['G']

/-- C5: read-your-write with TTL at the store level — a `put` followed by
a `get` of the same fingerprint returns the stored result exactly while
the TTL has not elapsed and absent from then on (no resurrection) — and
at the orchestration level a second `process_diagnosis` with identical
inputs within the TTL of a first successful (cache-miss) call returns
the equal cached result with zero model invocations. -/
theorem C5_cache_idempotent :
    (∀ (s : KV DiagnosisResult) (now ttl : Nat) (k : String)
        (r : DiagnosisResult) (t : Nat),
        (s.setex now ttl k r).get t k =
          if t < now + ttl then some r else none) ∧
    (∀ (md5hex : Bytes → String) (jp : List Char → Option RawDiagnosis)
        (script : Nat → Nat → CallOutcome) (mr nm : Nat)
        (cache : KV DiagnosisResult) (now ttl t : Nat) (img pt : Bytes)
        (rg : Option Bytes) (r : DiagnosisResult),
        cache.get now (generate_diagnosis_key md5hex img pt rg) = none →
        (process_diagnosis md5hex jp script mr nm cache now ttl (some img)
            pt rg).outcome = .success r →
        t < now + ttl →
        process_diagnosis md5hex jp script mr nm
            (process_diagnosis md5hex jp script mr nm cache now ttl
              (some img) pt rg).cache t ttl (some img) pt rg =
          ⟨.success r,
           (process_diagnosis md5hex jp script mr nm cache now ttl
             (some img) pt rg).cache, 1, []⟩) := by
  refine ⟨fun s now ttl k r t => KV.get_setex_self s now ttl k r t, ?_⟩
  intro f jp sc mr nm cache now ttl t img pt rg r hmiss hout ht
  rcases hd : diagnose jp sc mr nm with ⟨res, tr⟩
  cases res with
  | error e =>
    rw [show process_diagnosis f jp sc mr nm cache now ttl (some img) pt rg
        = ⟨.geminiError e, cache, 0, tr⟩ from by
      simp [process_diagnosis, hmiss, hd]] at hout
    exact absurd hout (by simp)
  | ok r0 =>
    have hp1 : process_diagnosis f jp sc mr nm cache now ttl (some img) pt rg
        = ⟨.success r0,
           cache.setex now ttl (generate_diagnosis_key f img pt rg) r0, 1,
           tr⟩ := by
      simp [process_diagnosis, hmiss, hd]
    rw [hp1] at hout ⊢
    simp only [ProcOutcome.success.injEq] at hout
    subst hout
    simp [process_diagnosis, KV.get_setex_self, ht]

/-- C5 witness: the store-level law at a concrete entry and the
orchestration-level idempotence on a concrete first run (empty cache,
every call answering valid JSON). -/
theorem C5_cache_idempotent_witness :
    (KV.empty.setex 0 3600 keyEx resGood).get 10 keyEx =
      (if 10 < 0 + 3600 then some resGood else none) ∧
    process_diagnosis md5Ex jpEx scriptGood 3 2
        (process_diagnosis md5Ex jpEx scriptGood 3 2 KV.empty 0 3600
          (some imgEx) ptEx none).cache 10 3600 (some imgEx) ptEx none =
      ⟨.success resGood,
       (process_diagnosis md5Ex jpEx scriptGood 3 2 KV.empty 0 3600
         (some imgEx) ptEx none).cache, 1, []⟩ :=
  ⟨C5_cache_idempotent.1 KV.empty 0 3600 keyEx resGood 10,
   C5_cache_idempotent.2 md5Ex jpEx scriptGood 3 2 KV.empty 0 3600 10
     imgEx ptEx none resGood (by decide) (by decide) (by decide)⟩

/-! ### String lemmas for the code-fence extraction (C4) -/

theorem dropPre_append (p s : List Char) : dropPre p (p ++ s) = some s := by
  induction p with
  | nil => rfl
  | cons c cs ih => simp [dropPre, ih]

theorem splitFirst_of_dropPre {delim s rest : List Char} (hne : s ≠ [])
    (h : dropPre delim s = some rest) :
    splitFirst delim s = some ([], rest) := by
  cases s with
  | nil => exact absurd rfl hne
  | cons c cs => simp [splitFirst, h]

theorem splitFirst_not_mem {s : List Char} (h : '`' ∉ s) :
    splitFirst fenceChars s = none := by
  induction s with
  | nil => rfl
  | cons c cs ih =>
    have hc : c ≠ '`' := fun hh => h (hh ▸ List.mem_cons_self c cs)
    have hcs : '`' ∉ cs := fun hh => h (List.mem_cons_of_mem c hh)
    have hind := ih hcs
    simp only [fenceChars] at hind
    simp [splitFirst, dropPre, fenceChars, hc, hind]

theorem splitFirst_append_fence {xs : List Char} (h : '`' ∉ xs)
    (rest : List Char) :
    splitFirst fenceChars (xs ++ (fenceChars ++ rest)) = some (xs, rest) := by
  induction xs with
  | nil =>
    rw [List.nil_append]
    exact splitFirst_of_dropPre (by simp [fenceChars]) (dropPre_append _ _)
  | cons c cs ih =>
    have hc : c ≠ '`' := fun hh => h (hh ▸ List.mem_cons_self c cs)
    have hcs : '`' ∉ cs := fun hh => h (List.mem_cons_of_mem c hh)
    rw [List.cons_append]
    simp [splitFirst, dropPre, fenceChars, hc]
    have := ih hcs
    simp [fenceChars] at this
    simp [this]

theorem pyStrip_cons_space {c : Char} (xs : List Char)
    (hc : isPySpace c = true) : pyStrip (c :: xs) = pyStrip xs := by
  simp [pyStrip, List.dropWhile_cons, hc]

theorem pyStrip_append_space {c : Char} (xs : List Char)
    (hc : isPySpace c = true) : pyStrip (xs ++ [c]) = pyStrip xs := by
  induction xs with
  | nil => simp [pyStrip, List.dropWhile_cons, hc]
  | cons x xs ih =>
    by_cases hx : isPySpace x
    · rw [List.cons_append, pyStrip_cons_space _ hx, pyStrip_cons_space _ hx]
      exact ih
    · simp only [pyStrip, List.cons_append, List.dropWhile_cons, hx,
        Bool.false_eq_true, if_false, List.reverse_cons, List.reverse_append,
        List.reverse_nil, List.nil_append, List.singleton_append,
        List.dropWhile_cons, hc, if_true]

theorem mem_pyStrip {c : Char} {s : List Char} (h : c ∈ pyStrip s) :
    c ∈ s := by
  unfold pyStrip at h
  rw [List.mem_reverse] at h
  have h2 := (List.dropWhile_sublist
    (l := (List.dropWhile isPySpace s).reverse) (p := isPySpace)).subset h
  rw [List.mem_reverse] at h2
  exact (List.dropWhile_sublist (l := s) (p := isPySpace)).subset h2

theorem extractFenced_no_fence {s : List Char} (h : '`' ∉ s) :
    extractFenced s = none := by
  unfold extractFenced
  rw [splitFirst_not_mem h]

theorem extractFenced_wrap {body : List Char} (h : '`' ∉ body) :
    extractFenced
        (fenceChars ++ ('j' :: 's' :: 'o' :: 'n' :: '\n' :: body) ++
          '\n' :: fenceChars) =
      some ('\n' :: (body ++ ['\n'])) := by
  have h1 : splitFirst fenceChars
      (fenceChars ++ ('j' :: 's' :: 'o' :: 'n' :: '\n' :: body) ++
        '\n' :: fenceChars) =
      some ([], ('j' :: 's' :: 'o' :: 'n' :: '\n' :: body) ++
        '\n' :: fenceChars) := by
    rw [List.append_assoc]
    exact splitFirst_of_dropPre (by simp [fenceChars]) (dropPre_append _ _)
  have h2 : dropPre ['j', 's', 'o', 'n']
      (('j' :: 's' :: 'o' :: 'n' :: '\n' :: body) ++ '\n' :: fenceChars) =
      some (('\n' :: body) ++ '\n' :: fenceChars) :=
    dropPre_append ['j', 's', 'o', 'n'] _
  have h3 : splitFirst fenceChars (('\n' :: body) ++ '\n' :: fenceChars) =
      some (('\n' :: body) ++ ['\n'], []) := by
    have := @splitFirst_append_fence (('\n' :: body) ++ ['\n'])
      (by
        intro hmem
        rcases List.mem_append.mp hmem with hmem | hmem
        · rcases List.mem_cons.mp hmem with hmem | hmem
          · exact absurd hmem (by decide)
          · exact h hmem
        · exact absurd hmem (by decide)) []
    simpa [List.append_assoc] using this
  unfold extractFenced
  rw [h1]
  dsimp only
  rw [h2]
  dsimp only
  rw [h3]
  rfl

theorem pyStrip_no_space_ends {a b : Char} (mid : List Char)
    (ha : isPySpace a = false) (hb : isPySpace b = false) :
    pyStrip (a :: (mid ++ [b])) = a :: (mid ++ [b]) := by
  simp [pyStrip, List.dropWhile_cons, ha, hb, List.reverse_cons,
    List.reverse_append]

/-- Wrapping a fence-free body in a markdown json code fence does not
change what the parser feeds to the JSON decoder. -/
theorem jsonParseOfText_wrap (jp : List Char → Option RawDiagnosis)
    {body : List Char} (h : '`' ∉ body) :
    jsonParseOfText jp
        (fenceChars ++ ('j' :: 's' :: 'o' :: 'n' :: '\n' :: body) ++
          '\n' :: fenceChars) =
      jsonParseOfText jp body := by
  have hshape : fenceChars ++ ('j' :: 's' :: 'o' :: 'n' :: '\n' :: body) ++
      '\n' :: fenceChars
      = '`' :: (('`' :: '`' :: 'j' :: 's' :: 'o' :: 'n' :: '\n' ::
          (body ++ ['\n', '`', '`'])) ++ ['`']) := by
    simp [fenceChars]
  have hstrip : pyStrip (fenceChars ++
      ('j' :: 's' :: 'o' :: 'n' :: '\n' :: body) ++ '\n' :: fenceChars)
      = fenceChars ++ ('j' :: 's' :: 'o' :: 'n' :: '\n' :: body) ++
        '\n' :: fenceChars := by
    rw [hshape]
    exact pyStrip_no_space_ends _ (by decide) (by decide)
  simp only [jsonParseOfText]
  rw [hstrip, extractFenced_wrap h]
  dsimp only
  rw [pyStrip_cons_space _ (by decide), pyStrip_append_space _ (by decide)]
  rw [extractFenced_no_fence (fun hm => h (mem_pyStrip hm))]

/-- C4: the parser strips surrounding code-fence markup before
decoding (a fence-free body wrapped in a markdown json fence parses
identically to the bare body); a JSON-decode failure yields a RETRYABLE
error, and a retryable failure costs one attempt and continues on the
SAME model at the next attempt index; a schema-validation failure
yields a NON-retryable error, and a non-retryable failure abandons the
model's remaining retries (one attempt consumed, then the next fallback
model); concretely, a model returning non-JSON on attempt (0,0) and
valid schema-conforming JSON on attempt (0,1) produces the result from
model 0 with no call ever made to model 1. -/
theorem C4_parse_retry_fallback :
    (∀ (jp : List Char → Option RawDiagnosis) (t : List Char),
        jsonParseOfText jp t = none →
        parse_response jp t =
          .error ⟨"Invalid JSON response", apiErrorMsg, true⟩ ∧
        attemptErr jp (.text t) =
          some (⟨"Invalid JSON response", apiErrorMsg, true⟩, false)) ∧
    (∀ (jp : List Char → Option RawDiagnosis) (t : List Char)
        (raw : RawDiagnosis),
        jsonParseOfText jp t = some raw →
        DiagnosisResult.model_validate raw = none →
        parse_response jp t =
          .error ⟨"Response validation failed", apiErrorMsg, false⟩ ∧
        attemptErr jp (.text t) =
          some (⟨"Response validation failed", apiErrorMsg, false⟩, true)) ∧
    (∀ (jp : List Char → Option RawDiagnosis)
        (outcomes : Nat → CallOutcome) (n a : Nat)
        (le : Option GeminiAPIError) (e : GeminiAPIError),
        attemptErr jp (outcomes a) = some (e, false) →
        runModel jp outcomes (n + 1) a le =
          ((runModel jp outcomes n (a + 1) (some e)).1,
           (runModel jp outcomes n (a + 1) (some e)).2.1,
           a :: (runModel jp outcomes n (a + 1) (some e)).2.2)) ∧
    (∀ (jp : List Char → Option RawDiagnosis)
        (outcomes : Nat → CallOutcome) (n a : Nat)
        (le : Option GeminiAPIError) (e : GeminiAPIError),
        attemptErr jp (outcomes a) = some (e, true) →
        runModel jp outcomes (n + 1) a le = (none, some e, [a])) ∧
    (∀ (jp : List Char → Option RawDiagnosis) (body : List Char),
        '`' ∉ body →
        jsonParseOfText jp
            (fenceChars ++ ('j' :: 's' :: 'o' :: 'n' :: '\n' :: body) ++
              '\n' :: fenceChars) =
          jsonParseOfText jp body) ∧
    diagnose jpEx scriptC4 3 2 = (.ok resGood, [(0, 0), (0, 1)]) := by
  refine ⟨?_, ?_, ?_, ?_, fun jp body h => jsonParseOfText_wrap jp h,
    by decide⟩
  · intro jp t h
    constructor
    · simp [parse_response, h]
    · simp [attemptErr, attemptOutcome, parse_response, h]
  · intro jp t raw h1 h2
    constructor
    · simp [parse_response, h1, h2]
    · simp [attemptErr, attemptOutcome, parse_response, h1, h2]
  · intro jp outcomes n a le e h
    have ho : attemptOutcome jp (outcomes a) = .error (e, false) := by
      unfold attemptErr at h
      rcases hx : attemptOutcome jp (outcomes a) with p | r
      · rw [hx] at h
        simp only [Option.some_inj] at h
        rw [h]
      · rw [hx] at h
        simp at h
    simp [runModel, ho]
  · intro jp outcomes n a le e h
    have ho : attemptOutcome jp (outcomes a) = .error (e, true) := by
      unfold attemptErr at h
      rcases hx : attemptOutcome jp (outcomes a) with p | r
      · rw [hx] at h
        simp only [Option.some_inj] at h
        rw [h]
      · rw [hx] at h
        simp at h
    simp [runModel, ho]

/-- C4 witness: the decode-failure classification at the non-JSON text
`X`, the schema-failure classification at the confidence-150 payload
`B`, one step of same-model retry, one step of abandonment, and fence
stripping around the valid payload `G`. -/
theorem C4_parse_retry_fallback_witness :
    (parse_response jpEx ['X'] =
       .error ⟨"Invalid JSON response", apiErrorMsg, true⟩ ∧
     attemptErr jpEx (.text ['X']) =
       some (⟨"Invalid JSON response", apiErrorMsg, true⟩, false)) ∧
    (parse_response jpEx ['B'] =
       .error ⟨"Response validation failed", apiErrorMsg, false⟩ ∧
     attemptErr jpEx (.text ['B']) =
       some (⟨"Response validation failed", apiErrorMsg, false⟩, true)) ∧
    runModel jpEx (fun _ => CallOutcome.text ['X']) 3 0 none =
      ((runModel jpEx (fun _ => CallOutcome.text ['X']) 2 1
          (some ⟨"Invalid JSON response", apiErrorMsg, true⟩)).1,
       (runModel jpEx (fun _ => CallOutcome.text ['X']) 2 1
          (some ⟨"Invalid JSON response", apiErrorMsg, true⟩)).2.1,
       0 :: (runModel jpEx (fun _ => CallOutcome.text ['X']) 2 1
          (some ⟨"Invalid JSON response", apiErrorMsg, true⟩)).2.2) ∧
    runModel jpEx (fun _ => CallOutcome.text ['B']) 3 0 none =
      (none, some ⟨"Response validation failed", apiErrorMsg, false⟩,
        [0]) ∧
    jsonParseOfText jpEx
        (fenceChars ++ ('j' :: 's' :: 'o' :: 'n' :: '\n' :: ['G']) ++
          '\n' :: fenceChars) =
      jsonParseOfText jpEx ['G'] :=
  ⟨C4_parse_retry_fallback.1 jpEx ['X'] (by decide),
   C4_parse_retry_fallback.2.1 jpEx ['B'] raw150 (by decide) (by decide),
   C4_parse_retry_fallback.2.2.1 jpEx _ 2 0 none _ (by decide),
   C4_parse_retry_fallback.2.2.2.1 jpEx _ 2 0 none _ (by decide),
   C4_parse_retry_fallback.2.2.2.2.1 jpEx ['G'] (by decide)⟩

/-! ### The last-error characterization of the diagnose loop (C3) -/

/-- When the attempt loop for one model ends without a result, the
threaded `last_error` is unchanged if no attempt ran, and otherwise is
exactly the error recorded by the final attempt in the trace. -/
theorem runModel_error_last (jp : List Char → Option RawDiagnosis)
    (outcomes : Nat → CallOutcome) :
    ∀ (n a : Nat) (le le' : Option GeminiAPIError) (tr : List Nat),
      runModel jp outcomes n a le = (none, le', tr) →
      (tr = [] ∧ le' = le) ∨
      (∃ (t : List Nat) (last : Nat) (e : GeminiAPIError) (ab : Bool),
        tr = t ++ [last] ∧ attemptErr jp (outcomes last) = some (e, ab) ∧
        le' = some e) := by
  intro n
  induction n with
  | zero =>
    intro a le le' tr h
    simp only [runModel, Prod.mk.injEq, true_and] at h
    exact Or.inl ⟨h.2.symm, h.1.symm⟩
  | succ m ih =>
    intro a le le' tr h
    rw [runModel] at h
    rcases ho : attemptOutcome jp (outcomes a) with p | r
    · obtain ⟨e, ab⟩ := p
      rw [ho] at h
      dsimp only at h
      cases ab with
      | true =>
        simp only [if_true, Prod.mk.injEq, true_and] at h
        refine Or.inr ⟨[], a, e, true, h.2.symm, ?_, h.1.symm⟩
        simp [attemptErr, ho]
      | false =>
        simp only [if_false, Bool.false_eq_true] at h
        rcases hrest : runModel jp outcomes m (a + 1) (some e)
            with ⟨r0, le0, tr0⟩
        rw [hrest] at h
        simp only [Prod.mk.injEq] at h
        obtain ⟨h1, h2, h3⟩ := h
        rw [h1] at hrest
        rcases ih (a + 1) (some e) le0 tr0 hrest with
          ⟨htr0, hle0⟩ | ⟨t, last, e2, ab2, htr0, hae, hle0⟩
        · subst htr0
          refine Or.inr ⟨[], a, e, false, h3.symm, ?_, by rw [← h2, hle0]⟩
          simp [attemptErr, ho]
        · subst htr0
          refine Or.inr ⟨a :: t, last, e2, ab2, ?_, hae, by rw [← h2, hle0]⟩
          rw [← h3, List.cons_append]
    · rw [ho] at h
      dsimp only at h
      simp at h

/-- When the whole fallback loop ends in an error, that error is the
incoming `last_error` default if no attempt ran at all, and otherwise
exactly the error recorded by the final attempt of the trace. -/
theorem runModels_error_last (jp : List Char → Option RawDiagnosis)
    (script : Nat → Nat → CallOutcome) (maxRetries : Nat) :
    ∀ (n idx : Nat) (le : Option GeminiAPIError) (e : GeminiAPIError)
      (tr : List (Nat × Nat)),
      runModels jp script maxRetries n idx le = (.error e, tr) →
      (tr = [] ∧ e = le.getD exhaustedErr) ∨
      (∃ (t : List (Nat × Nat)) (i a : Nat) (ab : Bool),
        tr = t ++ [(i, a)] ∧ attemptErr jp (script i a) = some (e, ab)) := by
  intro n
  induction n with
  | zero =>
    intro idx le e tr h
    simp only [runModels, Prod.mk.injEq] at h
    obtain ⟨h1, h2⟩ := h
    exact Or.inl ⟨h2.symm, (Except.error.inj h1).symm⟩
  | succ m ih =>
    intro idx le e tr h
    rw [runModels] at h
    rcases hrm : runModel jp (script idx) maxRetries 0 le with ⟨r0, le0, tr0⟩
    rw [hrm] at h
    cases r0 with
    | some r =>
      dsimp only at h
      simp at h
    | none =>
      dsimp only at h
      rcases hrest : runModels jp script maxRetries m (idx + 1) le0
          with ⟨res1, tr1⟩
      rw [hrest] at h
      simp only [Prod.mk.injEq] at h
      obtain ⟨h1, h2⟩ := h
      rw [h1] at hrest
      rcases ih (idx + 1) le0 e tr1 hrest with
        ⟨htr1, he⟩ | ⟨t, i, a, ab, htr1, hae⟩
      · subst htr1
        rcases runModel_error_last jp (script idx) maxRetries 0 le le0 tr0 hrm
            with ⟨htr0, hle0⟩ | ⟨t0, last, e2, ab2, htr0, hae2, hle0⟩
        · subst htr0
          refine Or.inl ⟨?_, ?_⟩
          · rw [← h2]
            simp
          · rw [he, hle0]
        · subst htr0
          refine Or.inr
            ⟨t0.map (fun a0 => (idx, a0)), idx, last, ab2, ?_, ?_⟩
          · rw [← h2]
            simp
          · rw [he, hle0]
            simpa using hae2
      · subst htr1
        refine Or.inr
          ⟨tr0.map (fun a0 => (idx, a0)) ++ t, i, a, ab, ?_, hae⟩
        rw [← h2, List.append_assoc]

/-- C3 counterexample: with three configured models all failing every
attempt with quota errors, `diagnose` raises the LAST recorded error —
whose retryable flag is TRUE, not the false the claim requires (the
source's `raise last_error or GeminiAPIError(..., retryable=False)`
reaches the retryable-false default only when no error was recorded). -/
theorem C3_counterexample :
    diagnose jpEx scriptQuota 3 3 =
      (.error quotaErr, [(0, 0), (1, 0), (2, 0)]) ∧
    quotaErr.retryable = true := by
  decide

/-- C3 amended: when every model is exhausted without a validated
response, `diagnose` fails with the LAST observed failure — preserving
that failure's own retryable flag, e.g. true after quota errors and
false after schema-validation failures — and falls back to the generic
all-models-failed error, whose retryable flag IS false, only when no
attempt recorded an error; and a failing request writes nothing to the
result cache (the handler's cache is returned unchanged). -/
theorem C3_amended :
    exhaustedErr.retryable = false ∧
    (∀ (jp : List Char → Option RawDiagnosis)
        (script : Nat → Nat → CallOutcome) (maxRetries numModels : Nat)
        (e : GeminiAPIError) (tr : List (Nat × Nat)),
        diagnose jp script maxRetries numModels = (.error e, tr) →
        (tr = [] ∧ e = exhaustedErr) ∨
        (∃ (t : List (Nat × Nat)) (i a : Nat) (ab : Bool),
          tr = t ++ [(i, a)] ∧
          attemptErr jp (script i a) = some (e, ab))) ∧
    (∀ (md5hex : Bytes → String) (jp : List Char → Option RawDiagnosis)
        (script : Nat → Nat → CallOutcome) (mr nm : Nat)
        (cache : KV DiagnosisResult) (now ttl : Nat)
        (img : Option Bytes) (pt : Bytes) (rg : Option Bytes)
        (e : GeminiAPIError),
        (process_diagnosis md5hex jp script mr nm cache now ttl img pt
            rg).outcome = .geminiError e →
        (process_diagnosis md5hex jp script mr nm cache now ttl img pt
            rg).cache = cache) := by
  refine ⟨rfl, ?_, ?_⟩
  · intro jp script maxRetries numModels e tr h
    have := runModels_error_last jp script maxRetries numModels 0 none e tr h
    simpa using this
  · intro f jp sc mr nm cache now ttl img pt rg e hout
    cases img with
    | none => rfl
    | some i =>
      rcases hget : cache.get now (generate_diagnosis_key f i pt rg)
          with _ | r
      · rcases hd : diagnose jp sc mr nm with ⟨res, tr⟩
        cases res with
        | error e2 => simp [process_diagnosis, hget, hd]
        | ok r0 =>
          rw [show process_diagnosis f jp sc mr nm cache now ttl (some i)
              pt rg = ⟨.success r0,
                cache.setex now ttl (generate_diagnosis_key f i pt rg) r0,
                1, tr⟩ from by simp [process_diagnosis, hget, hd]] at hout
          exact absurd hout (by simp)
      · simp [process_diagnosis, hget]

/-- C3 witness: the last-error law at the all-quota run and the
no-cache-write law at the all-quota handler run on an empty cache. -/
theorem C3_amended_witness :
    ((([(0, 0), (1, 0), (2, 0)] : List (Nat × Nat)) = [] ∧
        quotaErr = exhaustedErr) ∨
      (∃ (t : List (Nat × Nat)) (i a : Nat) (ab : Bool),
        ([(0, 0), (1, 0), (2, 0)] : List (Nat × Nat)) = t ++ [(i, a)] ∧
        attemptErr jpEx (scriptQuota i a) = some (quotaErr, ab))) ∧
    (process_diagnosis md5Ex jpEx scriptQuota 3 3 KV.empty 0 3600
        (some imgEx) ptEx none).cache = KV.empty :=
  ⟨C3_amended.2.1 jpEx scriptQuota 3 3 quotaErr [(0, 0), (1, 0), (2, 0)]
     (by decide),
   C3_amended.2.2 md5Ex jpEx scriptQuota 3 3 KV.empty 0 3600 (some imgEx)
     ptEx none quotaErr (by decide)⟩

end Chatbot
